import Mathlib

/-!
A verification development for the SysCleanX scan/clean accounting engine
(SysCleanX.py).  The filesystem is modelled as a finite tree: regular files
carry a byte size and an access-denied flag (covering both permission
failures and files that vanish mid-scan, which the source skips the same
way), directories carry a child list and an access-denied flag (a denied
directory cannot be listed), and symbolic links carry their resolved target
(none for a dangling link).  A path argument is modelled by the node the
path designates, none when the path does not exist.
-/

namespace SysCleanX

/-- A node of the modelled filesystem tree. -/
inductive FSNode : Type where
  | file (size : Nat) (denied : Bool)
  | dir (children : List (String × FSNode)) (denied : Bool)
  | symlink (target : Option FSNode)

/-- Follow symbolic links until a non-link node (or a dangling end) is
reached; models the resolution performed by os.path.exists, os.path.isfile,
os.path.isdir, os.path.getsize and os.stat. -/
def resolve : FSNode → Option FSNode
  | FSNode.symlink none => none
  | FSNode.symlink (some t) => resolve t
  | FSNode.file sz d => some (FSNode.file sz d)
  | FSNode.dir ch d => some (FSNode.dir ch d)

/-- os.path.exists: true when the link-resolved node exists. -/
def existsB : Option FSNode → Bool
  | none => false
  | some n => (resolve n).isSome

/-- os.path.isfile: the path resolves to a regular file. -/
def isfileB : Option FSNode → Bool
  | none => false
  | some n =>
    match resolve n with
    | some (FSNode.file _ _) => true
    | _ => false

/-- os.path.isdir: the path resolves to a directory. -/
def isdirB : Option FSNode → Bool
  | none => false
  | some n =>
    match resolve n with
    | some (FSNode.dir _ _) => true
    | _ => false

/-- Accumulation over one directory recursive walk
(os.walk with topdown=False and followlinks=False), translated from
SystemScanner.scan_directory_safely lines 93-103: a regular file whose
os.path.getsize call fails is skipped by the per-file except clause
(continue); a symbolic-link entry is skipped (the islink check for
file-like entries; directory-like links are placed in the dirs list and
never descended since followlinks is False); a denied subdirectory yields
nothing (os.walk swallows listing errors, onerror=None); accessible
subdirectories are descended. -/
def scanDir : List (String × FSNode) → Nat × Nat
  | [] => (0, 0)
  | (_, FSNode.file sz d) :: rest =>
    let r := scanDir rest
    if d then r else (r.1 + sz, r.2 + 1)
  | (_, FSNode.symlink _) :: rest => scanDir rest
  | (_, FSNode.dir ch d) :: rest =>
    let s := if d then (0, 0) else scanDir ch
    let r := scanDir rest
    (r.1 + s.1, r.2 + s.2)

/-- SystemScanner.scan_directory_safely (lines 76-107): total size and file
count of a path.  Nonexistent path: (0, 0); a path resolving to a regular
file: (size, 1), and (0, 0) when os.path.getsize raises at top level (the
outer except returns the untouched accumulators); a directory: the walk
accumulation, a denied root directory yielding nothing.  The result pair is
(total_size, file_count).  The final symlink case is unreachable because
resolve never returns a symlink node. -/
def scan_directory_safely : Option FSNode → Nat × Nat
  | none => (0, 0)
  | some n =>
    match resolve n with
    | none => (0, 0)
    | some (FSNode.file sz d) => if d then (0, 0) else (sz, 1)
    | some (FSNode.dir ch d) => if d then (0, 0) else scanDir ch
    | some (FSNode.symlink _) => (0, 0)

/-- Exceptions of the embedding.  Every failure the modelled primitives can
raise is an OSError (os.path.getsize failing on a denied file); the spare
constructor stands for any exception kind not caught by the except clauses
of scan_directory_safely, so that the escape branch of tryExceptOS is not
vacuously absent. -/
inductive PyErr : Type where
  | osError
  | other
deriving Repr, DecidableEq

/-- A try/except block catching (OSError, PermissionError): an osError is
absorbed and replaced by the handler result, any other exception
propagates. -/
def tryExceptOS {α : Type} (x : Except PyErr α) (onErr : α) : Except PyErr α :=
  match x with
  | Except.error PyErr.osError => Except.ok onErr
  | Except.error e => Except.error e
  | Except.ok v => Except.ok v

/-- Exception-level rendering of the walk accumulation of
scan_directory_safely: each file entry reads its size inside the per-file
try, whose except (OSError, FileNotFoundError) handler contributes nothing
and continues. -/
def scanDirE : List (String × FSNode) → Except PyErr (Nat × Nat)
  | [] => Except.ok (0, 0)
  | (_, FSNode.file sz d) :: rest => do
    let c ← tryExceptOS
      (if d then Except.error PyErr.osError else Except.ok ((sz, 1) : Nat × Nat)) (0, 0)
    let r ← scanDirE rest
    Except.ok (r.1 + c.1, r.2 + c.2)
  | (_, FSNode.symlink _) :: rest => scanDirE rest
  | (_, FSNode.dir ch d) :: rest => do
    let s ← if d then Except.ok ((0, 0) : Nat × Nat) else scanDirE ch
    let r ← scanDirE rest
    Except.ok (r.1 + s.1, r.2 + s.2)

/-- Exception-level rendering of scan_directory_safely: the try-block body
wrapped in the outer except (OSError, PermissionError) handler, which
returns the accumulators, still (0, 0) at every raise point of the body. -/
def scanE (st : Option FSNode) : Except PyErr (Nat × Nat) :=
  tryExceptOS
    (match st with
     | none => Except.ok (0, 0)
     | some n =>
       match resolve n with
       | none => Except.ok (0, 0)
       | some (FSNode.file sz d) =>
         if d then Except.error PyErr.osError else Except.ok (sz, 1)
       | some (FSNode.dir ch d) => if d then Except.ok (0, 0) else scanDirE ch
       | some (FSNode.symlink _) => Except.ok (0, 0))
    (0, 0)

/-- Remove from a child list everything the walk of scan_directory_safely
does not account for: denied files, denied subdirectories (walk cannot
list them) and symbolic links; accessible subdirectories are pruned
recursively.  The result is a fully accessible, symlink-free tree. -/
def pruneL : List (String × FSNode) → List (String × FSNode)
  | [] => []
  | (nm, FSNode.file sz d) :: rest =>
    if d then pruneL rest else (nm, FSNode.file sz false) :: pruneL rest
  | (_, FSNode.symlink _) :: rest => pruneL rest
  | (nm, FSNode.dir ch d) :: rest =>
    if d then pruneL rest else (nm, FSNode.dir (pruneL ch) false) :: pruneL rest

/-- Modelled from the spec (section 4.1, C2 reference definition): the total
size of the regular files of a directory, symbolic links excluded from the
total, subdirectories descended. -/
def specTotalSize : List (String × FSNode) → Nat
  | [] => 0
  | (_, FSNode.file sz _) :: rest => sz + specTotalSize rest
  | (_, FSNode.symlink _) :: rest => specTotalSize rest
  | (_, FSNode.dir ch _) :: rest => specTotalSize ch + specTotalSize rest

/-- Modelled from the spec (section 4.1, C2 reference definition): the
number of regular files of a directory, symbolic links excluded from the
count, subdirectories descended. -/
def specFileCount : List (String × FSNode) → Nat
  | [] => 0
  | (_, FSNode.file _ _) :: rest => 1 + specFileCount rest
  | (_, FSNode.symlink _) :: rest => specFileCount rest
  | (_, FSNode.dir ch _) :: rest => specFileCount ch + specFileCount rest

/-- Every node of the child list is accessible: no denied file and no
denied directory anywhere in the tree. -/
def accessibleL : List (String × FSNode) → Bool
  | [] => true
  | (_, FSNode.file _ d) :: rest => !d && accessibleL rest
  | (_, FSNode.symlink _) :: rest => accessibleL rest
  | (_, FSNode.dir ch d) :: rest => !d && accessibleL ch && accessibleL rest

/-- Child of a directory by name, through link resolution of the parent:
the node designated by the path parent/name. -/
def lookupChild (n : FSNode) (nm : String) : Option FSNode :=
  match resolve n with
  | some (FSNode.dir ch _) => (ch.find? (fun p => p.1 == nm)).map (fun p => p.2)
  | _ => none

/-- The loop body of SystemScanner.scan_firefox_cache (lines 122-127) for
one profile entry: the cache2 child of the profile is measured when it is a
directory, otherwise the profile contributes nothing. -/
def profileCacheScan (prof : FSNode) : Nat × Nat :=
  match lookupChild prof "cache2" with
  | some c => if isdirB (some c) then scan_directory_safely (some c) else (0, 0)
  | none => (0, 0)

/-- SystemScanner.scan_firefox_cache (lines 109-130): when the profile root
exists and can be listed, sum the measurement of the cache2 subdirectory of
each immediate child; an absent root, a root that is not a listable
directory (os.listdir raises, caught by the except clause) or a denied root
contributes (0, 0). -/
def scan_firefox_cache (st : Option FSNode) : Nat × Nat :=
  match st with
  | none => (0, 0)
  | some n =>
    match resolve n with
    | some (FSNode.dir ch d) =>
      if d then (0, 0)
      else ch.foldl
        (fun acc p =>
          let r := profileCacheScan p.2
          (acc.1 + r.1, acc.2 + r.2)) (0, 0)
    | _ => (0, 0)

/-- One entry of a category path list, by the dispatch of
SystemScanner.scan_location_size (lines 143-153): the REGISTRY_CLEANUP
sentinel string, a Firefox profile-root pattern (detected by substring) with
the node its path designates, or an ordinary glob pattern with the nodes
designated by its matches. -/
inductive PathSpec : Type where
  | registryCleanup
  | firefoxProfiles (root : Option FSNode)
  | globPattern (hits : List (Option FSNode))

/-- One iteration of the loop of SystemScanner.scan_location_size
(lines 143-159): the sentinel adds the nominal (1024 bytes, 1 file) without
touching the filesystem; a profile-root pattern adds the Firefox cache
measurement; a glob pattern adds the measurement of each matched path. -/
def specStep (acc : Nat × Nat) (s : PathSpec) : Nat × Nat :=
  match s with
  | PathSpec.registryCleanup => (acc.1 + 1024, acc.2 + 1)
  | PathSpec.firefoxProfiles root =>
    let r := scan_firefox_cache root
    (acc.1 + r.1, acc.2 + r.2)
  | PathSpec.globPattern ms =>
    ms.foldl
      (fun a m =>
        let r := scan_directory_safely m
        (a.1 + r.1, a.2 + r.2)) acc

/-- SystemScanner.scan_location_size (lines 132-160): fold the per-entry
step over the category path list, starting from zero accumulators. -/
def scan_location_size (specs : List PathSpec) : Nat × Nat :=
  specs.foldl specStep (0, 0)

/-- SystemScanner.scan_all_locations (lines 162-182): the per-category loop.
Each category scan is represented by its outcome, an Except value standing
for the result of scan_location_size on the category paths or for an
exception escaping it.  The source wraps the loop in no try/except: an
exception raised while scanning one category propagates out of the loop,
abandoning the remaining categories; otherwise the results are collected in
catalog order.  The progress callback and the cosmetic sleep are omitted as
they do not affect the returned results; the derived size_mb float is
likewise omitted. -/
def scan_all_locations :
    List (String × Except PyErr (Nat × Nat)) → Except PyErr (List (String × (Nat × Nat)))
  | [] => Except.ok []
  | (nm, sc) :: rest =>
    match sc with
    | Except.error e => Except.error e
    | Except.ok r =>
      match scan_all_locations rest with
      | Except.error e => Except.error e
      | Except.ok l => Except.ok ((nm, r) :: l)

mutual

/-- shutil.rmtree with ignore_errors=True on one node: a regular file or a
symbolic link is unlinked (a denied file fails and remains); a denied
directory cannot be listed and remains whole; otherwise the children are
removed best-effort, and the directory itself is removed only when every
child went away. -/
def rmtreeNode : FSNode → Option FSNode
  | FSNode.file sz d => if d then some (FSNode.file sz d) else none
  | FSNode.symlink _ => none
  | FSNode.dir ch d =>
    if d then some (FSNode.dir ch d)
    else
      match rmtreeL ch with
      | [] => none
      | l => some (FSNode.dir l false)

/-- Best-effort removal of a child list: children that could not be removed
remain. -/
def rmtreeL : List (String × FSNode) → List (String × FSNode)
  | [] => []
  | (nm, n) :: rest =>
    match rmtreeNode n with
    | none => rmtreeL rest
    | some n2 => (nm, n2) :: rmtreeL rest

end

/-- The deletion attempt of SystemCleaner.clean_directory_safely
(lines 234-242): os.remove for a path that is a regular file (removing the
link itself when the path is a symlink; a denied file raises, the exception
is absorbed by the except clause and the file remains); shutil.rmtree for a
directory (rmtree refuses a symlinked directory, the error being absorbed);
anything else is left untouched. -/
def deleteAttempt (st : Option FSNode) : Option FSNode :=
  match st with
  | none => none
  | some n =>
    if isfileB (some n) then
      match n with
      | FSNode.symlink _ => none
      | FSNode.file sz d => if d then some (FSNode.file sz d) else none
      | m => some m
    else if isdirB (some n) then
      match n with
      | FSNode.symlink _ => some n
      | FSNode.dir ch d => rmtreeNode (FSNode.dir ch d)
      | m => some m
    else some n

/-- SystemCleaner.clean_directory_safely (lines 221-244).  The env argument
models external interference with the target happening between the
before-measurement and the after-measurement (the source takes no lock);
env is applied to the post-deletion state before the second measurement.
The function returns the clamped differences in the source order
(files_deleted, bytes_freed) = (max 0 (count diff), max 0 (size diff)) as
signed integers, together with the state the path designates afterwards.
In the two early-return branches nothing is deleted and the state is
untouched. -/
def clean_directory_safely (st : Option FSNode) (env : Option FSNode → Option FSNode) :
    (Int × Int) × Option FSNode :=
  if existsB st = false then ((0, 0), st)
  else
    let ini := scan_directory_safely st
    if ini.2 = 0 then ((0, 0), st)
    else
      let st2 := env (deleteAttempt st)
      let fin := scan_directory_safely st2
      ((max 0 ((ini.2 : Int) - (fin.2 : Int)), max 0 ((ini.1 : Int) - (fin.1 : Int))), st2)

/-- The RunMRU registry key state: whether opening it with KEY_ALL_ACCESS
fails, and its named values.  The key itself may be absent, which is
modelled by an Option around this structure. -/
structure RunMRUKey : Type where
  denied : Bool
  values : List (String × String)

/-- winreg.QueryValueEx: the data of a named value, none when the value is
absent (FileNotFoundError). -/
def queryValue (vs : List (String × String)) (nm : String) : Option String :=
  (vs.find? (fun p => p.1 == nm)).map (fun p => p.2)

/-- winreg.DeleteValue: remove a named value; deleting an absent name is a
no-op here, matching the FileNotFoundError/continue handling of the
source. -/
def deleteValue (vs : List (String × String)) (nm : String) : List (String × String) :=
  vs.filter (fun p => !(p.1 == nm))

/-- winreg.SetValueEx: write a named value, replacing any previous data
under that name (the position of the value in the list is irrelevant to
queryValue). -/
def setValue (vs : List (String × String)) (nm v : String) : List (String × String) :=
  (nm, v) :: deleteValue vs nm

/-- The one-character value name list(mrulist) iterates over. -/
def charName (c : Char) : String := String.mk [c]

/-- SystemCleaner.clear_run_history (lines 269-288): open the RunMRU key
(absent key or denied access raises, the outer except returning (0, 0));
read the MRUList value (absent value raises, likewise (0, 0)); delete the
value named by each character of the list; reset MRUList to the empty
string; return the fixed nominal (1, 1024).  The returned pair is
(count, size); the second component is the post-state of the key. -/
def clear_run_history : Option RunMRUKey → (Nat × Nat) × Option RunMRUKey
  | none => ((0, 0), none)
  | some k =>
    if k.denied then ((0, 0), some k)
    else
      match queryValue k.values "MRUList" with
      | none => ((0, 0), some k)
      | some mrulist =>
        let vs1 := mrulist.toList.foldl (fun vs c => deleteValue vs (charName c)) k.values
        ((1, 1024), some { denied := k.denied, values := setValue vs1 "MRUList" "" })

/-- One uninstall-registry subkey: its optional DisplayName and optional
UninstallString values (none models the value being absent, which makes
winreg.QueryValueEx raise). -/
structure UninstallEntry : Type where
  displayName : Option String
  uninstallString : Option String

/-- The inner loop of SystemScanner.get_installed_apps (lines 197-208) over
the subkeys of one root: a subkey missing either value raises inside the
per-subkey try and is skipped (continue); a subkey with an empty display
name or empty uninstall string fails the truthiness test and is skipped. -/
def collectApps (subkeys : List UninstallEntry) : List (String × String) :=
  subkeys.filterMap
    (fun e =>
      match e.displayName, e.uninstallString with
      | some dn, some us => if dn ≠ "" ∧ us ≠ "" then some (dn, us) else none
      | _, _ => none)

/-- SystemScanner.get_installed_apps (lines 184-212): enumerate the
uninstall subtree under the per-user and the per-machine root (none models
the subtree being absent for that root, the FileNotFoundError/continue of
the source), concatenate the surviving (name, command) entries of both
roots, and sort the result by name ascending (the sorted builtin of the
source; insertion sort realizes its stable ascending order). -/
def get_installed_apps (hkcu hklm : Option (List UninstallEntry)) : List (String × String) :=
  let apps := [hkcu, hklm].foldl
    (fun acc root =>
      match root with
      | none => acc
      | some sks => acc ++ collectApps sks) []
  List.insertionSort (fun a b => a.1 ≤ b.1) apps

/-! ### Lemmas about the directory walk -/

theorem scanDir_pruneL (ch : List (String × FSNode)) : scanDir ch = scanDir (pruneL ch) := by
  induction ch using scanDir.induct <;>
    simp_all [scanDir, pruneL] <;>
    split <;> simp_all [scanDir]

theorem scanDir_spec (ch : List (String × FSNode)) (h : accessibleL ch = true) :
    scanDir ch = (specTotalSize ch, specFileCount ch) := by
  induction ch using scanDir.induct <;>
    simp_all [scanDir, accessibleL, specTotalSize, specFileCount, Prod.ext_iff] <;>
    omega

theorem scanDirE_eq (ch : List (String × FSNode)) : scanDirE ch = Except.ok (scanDir ch) := by
  induction ch using scanDir.induct <;>
    simp_all [scanDirE, scanDir, tryExceptOS, Bind.bind, Except.bind] <;>
    split <;> simp_all

/-! ### Claims about DirectoryAccountant -/

/-- C2: measure (scan_directory_safely) satisfies the three-case reference
definition: a nonexistent path gives (0, 0); a single regular file of size
N gives (N, 1); a fully accessible directory gives exactly the total size
and count of its regular files, symbolic links excluded from both fields
while subdirectories are still descended. -/
theorem measure_three_case_reference :
    scan_directory_safely none = (0, 0) ∧
    (∀ sz : Nat, scan_directory_safely (some (FSNode.file sz false)) = (sz, 1)) ∧
    (∀ ch, accessibleL ch = true →
      scan_directory_safely (some (FSNode.dir ch false)) =
        (specTotalSize ch, specFileCount ch)) := by
  refine ⟨rfl, fun sz => by simp [scan_directory_safely, resolve], fun ch h => ?_⟩
  simp [scan_directory_safely, resolve, scanDir_spec ch h]

/-- A concrete directory holding two regular files of sizes 10 and 5 (one
of them in a subdirectory) and one symbolic link: the accessibility
hypothesis of C2 holds and the measurement is (15, 2). -/
def wCh : List (String × FSNode) :=
  [("a", FSNode.file 10 false),
   ("l", FSNode.symlink (some (FSNode.file 7 false))),
   ("sub", FSNode.dir [("b", FSNode.file 5 false)] false)]

theorem measure_three_case_reference_witness :
    accessibleL wCh = true ∧
      scan_directory_safely (some (FSNode.dir wCh false)) = (15, 2) := by
  refine ⟨by simp [wCh, accessibleL], ?_⟩
  have h := measure_three_case_reference.2.2 wCh (by simp [wCh, accessibleL])
  simpa [wCh, specTotalSize, specFileCount] using h

/-- C3: measure (scan_directory_safely) never raises for any pattern of
per-file or top-level access failures: the exception-level rendering scanE
always returns ok with the value of the total function (the error branch
never escapes); a failing file is excluded from both accumulators (the
walk result equals the walk of the pruned, failure-free tree); and a
top-level access failure on the root path (a root file whose getsize
raises, or a root directory that cannot be listed) yields (0, 0). -/
theorem measure_total_and_skips_failures :
    (∀ st, scanE st = Except.ok (scan_directory_safely st)) ∧
    (∀ ch, scanDir ch = scanDir (pruneL ch)) ∧
    (∀ sz, scan_directory_safely (some (FSNode.file sz true)) = (0, 0)) ∧
    (∀ ch, scan_directory_safely (some (FSNode.dir ch true)) = (0, 0)) := by
  refine ⟨fun st => ?_, scanDir_pruneL,
    fun sz => by simp [scan_directory_safely, resolve],
    fun ch => by simp [scan_directory_safely, resolve]⟩
  cases st with
  | none => rfl
  | some n =>
    cases h : resolve n with
    | none => simp [scanE, scan_directory_safely, h, tryExceptOS]
    | some m =>
      cases m with
      | file sz d => cases d <;> simp [scanE, scan_directory_safely, h, tryExceptOS]
      | dir ch d =>
        cases d <;> simp [scanE, scan_directory_safely, h, tryExceptOS, scanDirE_eq]
      | symlink t => simp [scanE, scan_directory_safely, h, tryExceptOS]

/-- C10: a root path that is itself a symbolic link to an existing regular
file is classified by following the link and measured as (target size, 1);
the very same link placed as an entry inside a scanned directory is
excluded and contributes (0, 0). -/
theorem root_symlink_followed :
    (∀ sz, scan_directory_safely
      (some (FSNode.symlink (some (FSNode.file sz false)))) = (sz, 1)) ∧
    (∀ nm sz, scan_directory_safely
      (some (FSNode.dir [(nm, FSNode.symlink (some (FSNode.file sz false)))] false)) =
        (0, 0)) := by
  constructor
  · intro sz; simp [scan_directory_safely, resolve]
  · intro nm sz; simp [scan_directory_safely, resolve, scanDir]

/-! ### Claims about the Reclaimer -/

/-- C1: reclaim (clean_directory_safely) returns exactly the clamped
before/after differences, in the source order (files first, bytes second),
where the after-measurement is taken on the same path after the deletion
attempt and any external interference env; consequently both returned
fields are non-negative for every state and every interference. -/
theorem reclaim_is_clamped_measurement_diff :
    (∀ st env, 0 ≤ ((clean_directory_safely st env).1).1 ∧
      0 ≤ ((clean_directory_safely st env).1).2) ∧
    (∀ st env, existsB st = true → (scan_directory_safely st).2 ≠ 0 →
      (clean_directory_safely st env).1 =
        (max 0 (((scan_directory_safely st).2 : Int) -
            ((scan_directory_safely (env (deleteAttempt st))).2 : Int)),
         max 0 (((scan_directory_safely st).1 : Int) -
            ((scan_directory_safely (env (deleteAttempt st))).1 : Int)))) := by
  constructor
  · intro st env
    simp only [clean_directory_safely]
    split
    · exact ⟨le_refl 0, le_refl 0⟩
    · split
      · exact ⟨le_refl 0, le_refl 0⟩
      · exact ⟨le_max_left 0 _, le_max_left 0 _⟩
  · intro st env hex hcnt
    simp [clean_directory_safely, hex, hcnt]

/-- Applying C1 at a concrete input: a 7-byte file is deleted while an
external writer re-creates a 100-byte file at the same path before the
second measurement; the clamp yields (0, 0) rather than a negative
reclaim. -/
theorem reclaim_is_clamped_measurement_diff_witness :
    existsB (some (FSNode.file 7 false)) = true ∧
      (clean_directory_safely (some (FSNode.file 7 false))
        (fun _ => some (FSNode.file 100 false))).1 = (0, 0) := by
  refine ⟨rfl, ?_⟩
  have h := reclaim_is_clamped_measurement_diff.2 (some (FSNode.file 7 false))
    (fun _ => some (FSNode.file 100 false)) rfl
    (by simp [scan_directory_safely, resolve])
  simpa [scan_directory_safely, resolve] using h

/-- C4: when the pre-measurement of a path is (0, 0) — the path is
nonexistent, or an existing target with zero regular-file count such as a
directory holding only symbolic links — reclaim returns (0, 0), performs
no deletion, and leaves the state at the path (its absence included)
untouched. -/
theorem reclaim_zero_case_idempotent (st : Option FSNode)
    (env : Option FSNode → Option FSNode)
    (h : scan_directory_safely st = (0, 0)) :
    clean_directory_safely st env = ((0, 0), st) := by
  simp only [clean_directory_safely, h]
  split
  · rfl
  · rfl

/-- Applying C4 at a concrete input: a directory containing only a symbolic
link measures (0, 0), and reclaiming it returns (0, 0) with the directory
left in place. -/
theorem reclaim_zero_case_idempotent_witness :
    clean_directory_safely
        (some (FSNode.dir [("l", FSNode.symlink (some (FSNode.file 5 false)))] false))
        (fun s => s) =
      ((0, 0),
        some (FSNode.dir [("l", FSNode.symlink (some (FSNode.file 5 false)))] false)) :=
  reclaim_zero_case_idempotent _ _ (by simp [scan_directory_safely, resolve, scanDir])

/-! ### Lemmas about the accumulating folds of the PatternResolver -/

theorem foldl_accum_sum {α : Type} (g : α → Nat × Nat) (l : List α) :
    ∀ acc : Nat × Nat,
      l.foldl (fun a x => (a.1 + (g x).1, a.2 + (g x).2)) acc =
        (acc.1 + (l.map fun x => (g x).1).sum, acc.2 + (l.map fun x => (g x).2).sum) := by
  induction l with
  | nil => intro acc; simp
  | cons x rest ih =>
    intro acc
    simp only [List.foldl_cons, List.map_cons, List.sum_cons, ih]
    simp [Prod.ext_iff]
    omega

theorem specStep_shift (acc : Nat × Nat) (s : PathSpec) :
    specStep acc s = (acc.1 + (specStep (0, 0) s).1, acc.2 + (specStep (0, 0) s).2) := by
  cases s <;> simp [specStep, foldl_accum_sum]

theorem foldl_specStep_shift (l : List PathSpec) (acc : Nat × Nat) :
    l.foldl specStep acc =
      (acc.1 + (l.foldl specStep (0, 0)).1, acc.2 + (l.foldl specStep (0, 0)).2) := by
  induction l generalizing acc with
  | nil => simp
  | cons s rest ih =>
    simp only [List.foldl_cons]
    rw [ih (specStep acc s), ih (specStep (0, 0) s), specStep_shift acc s]
    simp [Prod.ext_iff]
    omega

/-! ### Claims about scan_firefox_cache and the sentinel dispatch -/

/-- The concrete profile root of C6: three profile subdirectories, each
with a cache2 subdirectory holding two regular files of sizes 10 and 20. -/
def ffCache : FSNode :=
  FSNode.dir [("f1", FSNode.file 10 false), ("f2", FSNode.file 20 false)] false

def ffProfile : FSNode := FSNode.dir [("cache2", ffCache)] false

def ffRoot : FSNode :=
  FSNode.dir [("p1", ffProfile), ("p2", ffProfile), ("p3", ffProfile)] false

/-- C6: scanning a browser-profile root sums the DirectoryAccountant result
of the cache2 subdirectory of each immediate child of the root; an absent
root contributes (0, 0) without error, and so does a child lacking a cache2
subdirectory; on the concrete root with three profiles of two files (10 and
20 bytes) each, the result is (90 bytes, 6 files). -/
theorem firefox_cache_sums_profiles :
    scan_firefox_cache none = (0, 0) ∧
    (∀ ch, scan_firefox_cache (some (FSNode.dir ch false)) =
      ((ch.map fun p => (profileCacheScan p.2).1).sum,
       (ch.map fun p => (profileCacheScan p.2).2).sum)) ∧
    (∀ prof, lookupChild prof "cache2" = none → profileCacheScan prof = (0, 0)) ∧
    scan_firefox_cache (some ffRoot) = (90, 6) := by
  have hsum : ∀ ch, scan_firefox_cache (some (FSNode.dir ch false)) =
      ((ch.map fun p => (profileCacheScan p.2).1).sum,
       (ch.map fun p => (profileCacheScan p.2).2).sum) := by
    intro ch
    simp only [scan_firefox_cache, resolve]
    rw [foldl_accum_sum (fun p => profileCacheScan p.2) ch (0, 0)]
    simp
  refine ⟨rfl, hsum, fun prof h => by simp [profileCacheScan, h], ?_⟩
  rw [show ffRoot = FSNode.dir [("p1", ffProfile), ("p2", ffProfile), ("p3", ffProfile)] false
    from rfl, hsum]
  simp [profileCacheScan, lookupChild, ffProfile, ffCache, resolve, isdirB,
    scan_directory_safely, scanDir, List.find?]

/-- Applying C6 at a concrete input: a profile entry that is a plain file
has no cache2 child and contributes (0, 0). -/
theorem firefox_cache_sums_profiles_witness :
    lookupChild (FSNode.file 3 false) "cache2" = none ∧
      profileCacheScan (FSNode.file 3 false) = (0, 0) :=
  ⟨rfl, firefox_cache_sums_profiles.2.2.1 (FSNode.file 3 false) rfl⟩

/-- C9: a REGISTRY_CLEANUP sentinel entry contributes exactly
(1024 bytes, 1 file) to the scan result of its category, independently of
the other entries of the path list and of any filesystem or registry
content (the sentinel branch consults neither). -/
theorem registry_sentinel_nominal_contribution (pre post : List PathSpec) :
    scan_location_size (pre ++ PathSpec.registryCleanup :: post) =
      ((scan_location_size (pre ++ post)).1 + 1024,
       (scan_location_size (pre ++ post)).2 + 1) := by
  simp only [scan_location_size, List.foldl_append, List.foldl_cons]
  rw [foldl_specStep_shift post (specStep (pre.foldl specStep (0, 0)) PathSpec.registryCleanup),
    foldl_specStep_shift post (pre.foldl specStep (0, 0))]
  simp [specStep, Prod.ext_iff]
  omega

/-! ### Claims about the category loop of the scan pass -/

/-- Whether an Except outcome is a success. -/
def exOk {α : Type} : Except PyErr α → Bool
  | Except.ok _ => true
  | Except.error _ => false

/-- The per-category loop of the clean pass, SysCleanXApp.clean_thread
(lines 560-573): for each selected category, SystemCleaner.clean_location
(lines 290-314) is called and its (files_deleted, bytes_freed) result is
added to the running totals.  Each category clean is represented by its
outcome, an Except value standing for the totals clean_location returns for
the category paths or for an exception escaping it (clean_location itself
wraps its loop in no try/except).  Neither loop installs a handler at the
category boundary: an exception raised while cleaning one category
propagates, abandoning the remaining categories and the accumulated totals
(the catch in clean_thread reports only the error); otherwise the summed
totals are returned.  The progress updates and the cosmetic sleep are
omitted as they do not affect the returned totals. -/
def clean_thread : List (String × Except PyErr (Nat × Nat)) → Except PyErr (Nat × Nat)
  | [] => Except.ok (0, 0)
  | (_, oc) :: rest =>
    match oc with
    | Except.error e => Except.error e
    | Except.ok r =>
      match clean_thread rest with
      | Except.error e => Except.error e
      | Except.ok t => Except.ok (r.1 + t.1, r.2 + t.2)

/-- C5 counterexample: with two categories, the first of which fails
unexpectedly while the second would scan to (5, 1) and clean to (5, 1),
neither the scan pass nor the clean pass returns any per-category result —
the failure is not caught at the category boundary on either pass, and the
processing of the remaining category is aborted rather than continued. -/
theorem category_failure_aborts_rest_cex :
    scan_all_locations [("A", Except.error PyErr.other), ("B", Except.ok (5, 1))] =
        Except.error PyErr.other ∧
      exOk (scan_all_locations
        [("A", Except.error PyErr.other), ("B", Except.ok (5, 1))]) = false ∧
      clean_thread [("A", Except.error PyErr.other), ("B", Except.ok (5, 1))] =
        Except.error PyErr.other ∧
      exOk (clean_thread
        [("A", Except.error PyErr.other), ("B", Except.ok (5, 1))]) = false :=
  ⟨rfl, rfl, rfl, rfl⟩

/-- C5 amended: an unexpected failure during the scan or clean pass of one
category is not caught at that category boundary; it propagates out of the
per-category loop (scan_all_locations for scanning, the loop of
clean_thread over clean_location outcomes for cleaning), aborting the
processing of the remaining categories, and surfaces to the caller of the
whole pass as the escaping failure value, never silently merged into a
zero result: the scan pass returns one result per category, in catalog
order, whenever every category scan succeeds — and only then — and the
clean pass likewise returns summed totals exactly when every category
clean succeeds. -/
theorem category_failure_propagates_to_pass_boundary :
    (∀ (pre : List (String × Except PyErr (Nat × Nat))) nm e post,
      (∀ c ∈ pre, exOk c.2 = true) →
      scan_all_locations (pre ++ (nm, Except.error e) :: post) = Except.error e) ∧
    (∀ cats, (∀ c ∈ cats, exOk c.2 = true) →
      ∃ l, scan_all_locations cats = Except.ok l ∧ l.map Prod.fst = cats.map Prod.fst) ∧
    (∀ (pre : List (String × Except PyErr (Nat × Nat))) nm e post,
      (∀ c ∈ pre, exOk c.2 = true) →
      clean_thread (pre ++ (nm, Except.error e) :: post) = Except.error e) ∧
    (∀ cats, (∀ c ∈ cats, exOk c.2 = true) →
      ∃ t, clean_thread cats = Except.ok t) := by
  refine ⟨?_, ?_, ?_, ?_⟩
  · intro pre nm e post h
    induction pre with
    | nil => rfl
    | cons c rest ih =>
      obtain ⟨nm2, sc⟩ := c
      cases sc with
      | error e2 => simp [exOk] at h
      | ok r =>
        have := ih (fun c hc => h c (List.mem_cons_of_mem _ hc))
        simp [scan_all_locations, this]
  · intro cats h
    induction cats with
    | nil => exact ⟨[], rfl, rfl⟩
    | cons c rest ih =>
      obtain ⟨nm2, sc⟩ := c
      cases sc with
      | error e2 => simp [exOk] at h
      | ok r =>
        obtain ⟨l, hl, hmap⟩ := ih (fun c hc => h c (List.mem_cons_of_mem _ hc))
        exact ⟨(nm2, r) :: l, by simp [scan_all_locations, hl], by simp [hmap]⟩
  · intro pre nm e post h
    induction pre with
    | nil => rfl
    | cons c rest ih =>
      obtain ⟨nm2, sc⟩ := c
      cases sc with
      | error e2 => simp [exOk] at h
      | ok r =>
        have := ih (fun c hc => h c (List.mem_cons_of_mem _ hc))
        simp [clean_thread, this]
  · intro cats h
    induction cats with
    | nil => exact ⟨(0, 0), rfl⟩
    | cons c rest ih =>
      obtain ⟨nm2, sc⟩ := c
      cases sc with
      | error e2 => simp [exOk] at h
      | ok r =>
        obtain ⟨t, ht⟩ := ih (fun c hc => h c (List.mem_cons_of_mem _ hc))
        exact ⟨(r.1 + t.1, r.2 + t.2), by simp [clean_thread, ht]⟩

/-- Applying the amended C5 at a concrete input: category A succeeds,
category B fails unexpectedly, category C would succeed; both the scan
pass and the clean pass return the escaping failure of B. -/
theorem category_failure_propagates_to_pass_boundary_witness :
    (∀ c ∈ [(("A" : String), Except.ok ((1, 2) : Nat × Nat))], exOk c.2 = true) ∧
      scan_all_locations
        [("A", Except.ok (1, 2)), ("B", Except.error PyErr.other), ("C", Except.ok (3, 4))] =
        Except.error PyErr.other ∧
      clean_thread
        [("A", Except.ok (1, 2)), ("B", Except.error PyErr.other), ("C", Except.ok (3, 4))] =
        Except.error PyErr.other := by
  refine ⟨by decide, ?_, ?_⟩
  · exact category_failure_propagates_to_pass_boundary.1 [("A", Except.ok (1, 2))] "B"
      PyErr.other [("C", Except.ok (3, 4))] (by decide)
  · exact category_failure_propagates_to_pass_boundary.2.2.1 [("A", Except.ok (1, 2))] "B"
      PyErr.other [("C", Except.ok (3, 4))] (by decide)

/-! ### Lemmas about registry value lists -/

theorem queryValue_deleteValue_self (vs : List (String × String)) (nm : String) :
    queryValue (deleteValue vs nm) nm = none := by
  induction vs with
  | nil => rfl
  | cons p rest ih =>
    cases h : p.1 == nm <;>
      simp_all [queryValue, deleteValue, List.filter_cons, List.find?_cons, h]

theorem queryValue_deleteValue_of_none (vs : List (String × String)) (nm nm2 : String)
    (h : queryValue vs nm = none) : queryValue (deleteValue vs nm2) nm = none := by
  simp only [queryValue, deleteValue, Option.map_eq_none', List.find?_eq_none] at h ⊢
  intro x hx
  exact h x (List.mem_filter.mp hx).1

theorem queryValue_foldl_delete_of_none (l : List Char) (vs : List (String × String))
    (nm : String) (h : queryValue vs nm = none) :
    queryValue (l.foldl (fun vs c => deleteValue vs (charName c)) vs) nm = none := by
  induction l generalizing vs with
  | nil => exact h
  | cons c rest ih =>
    exact ih (deleteValue vs (charName c)) (queryValue_deleteValue_of_none vs nm (charName c) h)

theorem queryValue_foldl_delete_mem (l : List Char) (vs : List (String × String))
    (c : Char) (hc : c ∈ l) :
    queryValue (l.foldl (fun vs c => deleteValue vs (charName c)) vs) (charName c) = none := by
  induction l generalizing vs with
  | nil => cases hc
  | cons c2 rest ih =>
    rcases List.mem_cons.mp hc with h | h
    · subst h
      exact queryValue_foldl_delete_of_none rest (deleteValue vs (charName c)) (charName c)
        (queryValue_deleteValue_self vs (charName c))
    · exact ih (deleteValue vs (charName c2)) h

theorem charName_ne_MRUList (c : Char) : charName c ≠ "MRUList" := by
  intro h
  have hlen : (charName c).length = "MRUList".length := by rw [h]
  have h1 : (charName c).length = 1 := rfl
  have h7 : "MRUList".length = 7 := rfl
  rw [h1, h7] at hlen
  exact absurd hlen (by omega)

theorem queryValue_setValue_self (vs : List (String × String)) (nm v : String) :
    queryValue (setValue vs nm v) nm = some v := by
  simp [setValue, queryValue, List.find?_cons]

/-! ### Claim about RegistryAccessor clearRunHistory -/

/-- C7: when the RunMRU key opens and its MRUList value is present,
clear_run_history deletes every value named by a character of the list,
resets MRUList to the empty string, and returns the fixed nominal (1, 1024)
regardless of the content of the list (the empty list of a second
invocation included); an absent key, a denied key, or a key without the
MRUList value yields (0, 0) with the key untouched. -/
theorem clear_run_history_spec :
    (∀ (k : RunMRUKey) (mru : String), k.denied = false →
      queryValue k.values "MRUList" = some mru →
      (clear_run_history (some k)).1 = (1, 1024) ∧
      ∃ vs, (clear_run_history (some k)).2 = some { denied := false, values := vs } ∧
        queryValue vs "MRUList" = some "" ∧
        ∀ c ∈ mru.toList, queryValue vs (charName c) = none) ∧
    clear_run_history none = ((0, 0), none) ∧
    (∀ k : RunMRUKey, k.denied = true → clear_run_history (some k) = ((0, 0), some k)) ∧
    (∀ k : RunMRUKey, k.denied = false → queryValue k.values "MRUList" = none →
      clear_run_history (some k) = ((0, 0), some k)) := by
  refine ⟨fun k mru hd hm => ?_, rfl, fun k hd => by simp [clear_run_history, hd],
    fun k hd hm => by simp [clear_run_history, hd, hm]⟩
  refine ⟨by simp [clear_run_history, hd, hm], ?_⟩
  refine ⟨setValue (mru.toList.foldl (fun vs c => deleteValue vs (charName c)) k.values)
    "MRUList" "", by simp [clear_run_history, hd, hm], queryValue_setValue_self _ _ _, ?_⟩
  intro c hc
  have h1 := queryValue_foldl_delete_mem mru.toList k.values c hc
  have hne : ("MRUList" == charName c) = false :=
    beq_eq_false_iff_ne.mpr (fun h => charName_ne_MRUList c h.symm)
  simp only [setValue, queryValue, List.find?_cons, hne]
  exact queryValue_deleteValue_of_none _ _ _ h1

/-- Applying C7 at a concrete input: a key holding MRUList = "ab" and the
two named values returns the nominal (1, 1024). -/
theorem clear_run_history_spec_witness :
    queryValue [("MRUList", "ab"), ("a", "x"), ("b", "y")] "MRUList" = some "ab" ∧
      (clear_run_history
        (some ⟨false, [("MRUList", "ab"), ("a", "x"), ("b", "y")]⟩)).1 = (1, 1024) :=
  ⟨rfl, (clear_run_history_spec.1 ⟨false, [("MRUList", "ab"), ("a", "x"), ("b", "y")]⟩
    "ab" rfl rfl).1⟩

/-! ### Claim about RegistryAccessor listInstalledApplications -/

instance : IsTotal (String × String) (fun a b => a.1 ≤ b.1) :=
  ⟨fun a b => le_total a.1 b.1⟩

instance : IsTrans (String × String) (fun a b => a.1 ≤ b.1) :=
  ⟨fun _ _ _ h1 h2 => le_trans h1 h2⟩

instance : DecidableRel (fun a b : String × String => a.1 ≤ b.1) :=
  fun a b => inferInstanceAs (Decidable (a.1 ≤ b.1))

theorem mem_collectApps {p : String × String} {sks : List UninstallEntry}
    (h : p ∈ collectApps sks) : p.1 ≠ "" ∧ p.2 ≠ "" := by
  simp only [collectApps, List.mem_filterMap] at h
  obtain ⟨e, _, hfe⟩ := h
  rcases e with ⟨dn, us⟩
  cases dn with
  | none => simp at hfe
  | some dn =>
    cases us with
    | none => simp at hfe
    | some us =>
      simp only at hfe
      split at hfe
      · cases hfe
        exact ⟨by simp_all, by simp_all⟩
      · cases hfe

/-- C8: listInstalledApplications enumerates both configuration-store
roots, each contributing exactly the subkeys that carry a non-empty display
name and a non-empty uninstall command (an absent subtree for one root does
not abort the other, and duplicate names across the roots stay as separate
entries: the result is a permutation of the concatenation of the two
filtered roots); the result is sorted ascending by name, and every entry
has a non-empty name and command. -/
theorem installed_apps_sorted_and_filtered (hkcu hklm : Option (List UninstallEntry)) :
    List.Sorted (fun a b => a.1 ≤ b.1) (get_installed_apps hkcu hklm) ∧
    List.Perm (get_installed_apps hkcu hklm)
      ((match hkcu with | none => [] | some sks => collectApps sks) ++
       (match hklm with | none => [] | some sks => collectApps sks)) ∧
    (∀ p ∈ get_installed_apps hkcu hklm, p.1 ≠ "" ∧ p.2 ≠ "") := by
  have happs : get_installed_apps hkcu hklm =
      List.insertionSort (fun a b => a.1 ≤ b.1)
        ((match hkcu with | none => [] | some sks => collectApps sks) ++
         (match hklm with | none => [] | some sks => collectApps sks)) := by
    cases hkcu <;> cases hklm <;> simp [get_installed_apps]
  have hperm := happs ▸ List.perm_insertionSort (fun a b : String × String => a.1 ≤ b.1)
    ((match hkcu with | none => [] | some sks => collectApps sks) ++
     (match hklm with | none => [] | some sks => collectApps sks))
  refine ⟨happs ▸ List.sorted_insertionSort _ _, hperm, fun p hp => ?_⟩
  have hp2 := hperm.mem_iff.mp hp
  rcases List.mem_append.mp hp2 with h | h
  · cases hkcu with
    | none => cases h
    | some sks => exact mem_collectApps h
  · cases hklm with
    | none => cases h
    | some sks => exact mem_collectApps h

/-- Applying C8 at a concrete input: the per-user root holds one valid
subkey and two invalid ones (a missing display name, an empty display
name), the per-machine root holds one valid subkey; the valid per-machine
entry is a member of the result and has non-empty fields. -/
theorem installed_apps_sorted_and_filtered_witness :
    ("A", "x") ∈ get_installed_apps
        (some [⟨some "B", some "y"⟩, ⟨none, some "z"⟩, ⟨some "", some "w"⟩])
        (some [⟨some "A", some "x"⟩]) ∧
      ("A" : String) ≠ "" ∧ ("x" : String) ≠ "" := by
  have hm : ("A", "x") ∈ get_installed_apps
      (some [⟨some "B", some "y"⟩, ⟨none, some "z"⟩, ⟨some "", some "w"⟩])
      (some [⟨some "A", some "x"⟩]) := by
    simp [get_installed_apps, collectApps, List.filterMap]
    decide
  exact ⟨hm, (installed_apps_sorted_and_filtered
    (some [⟨some "B", some "y"⟩, ⟨none, some "z"⟩, ⟨some "", some "w"⟩])
    (some [⟨some "A", some "x"⟩])).2.2 ("A", "x") hm⟩

end SysCleanX
